import Mathlib

/-!
Verification development for the GenerativeAgents-Alien-Town core.

Shallow embedding of the data model and operations of:
- `src/modules/memory/event.py` (class `Event`)
- `src/modules/maze.py` (classes `Tile`, `Maze`: `add_event`, `update_events`,
  `tile_at`, `get_around`, `find_path`)
- `src/modules/memory/schedule.py` (class `Schedule`: `current_plan`, `decompose`)
- `src/modules/memory/associate.py` (class `Associate`: `add_node`)
- `src/modules/model/llm_model.py` (class `LLMModel`: `completion`)
- `src/modules/agent.py` (`Agent.percept`, `Agent._add_concept`)

Python machine-level conventions modeled explicitly:
- Python list indexing `l[i]` supports negative indices (wrapping from the end)
  and raises `IndexError` out of range; modeled by `pyNth : List α → Int → Option α`.
- Python `or` on strings returns the right operand when the left is falsy
  (None or the empty string); modeled by `pyOrStr`.
-/

/-- Python index normalization: for a list of length `len`, index `i` resolves to
`i` when `0 ≤ i < len`, to `i + len` when `-len ≤ i < 0`, and is an error otherwise. -/
def pyIndex (len : Nat) (i : Int) : Option Nat :=
  if 0 ≤ i ∧ i < (len : Int) then some i.toNat
  else if -(len : Int) ≤ i ∧ i < 0 then some (i + (len : Int)).toNat
  else none

/-- Python `l[i]` for reading: negative indices wrap once; out-of-range is `none`
(an `IndexError` in the source). -/
def pyNth (l : List α) (i : Int) : Option α :=
  (pyIndex l.length i).bind (fun n => l.get? n)

/-- Python `l[i] = v`. The source performs writes only at indices already checked
to be in range, so the out-of-range arm (unreachable there) leaves the list unchanged. -/
def pySet (l : List α) (i : Int) (v : α) : List α :=
  match pyIndex l.length i with
  | some n => l.set n v
  | none => l

/-- Python `a or b` for strings, where `a` may be absent (`None`): returns `b`
when `a` is `None` or the empty string. -/
def pyOrStr (a : Option String) (b : String) : String :=
  match a with
  | some s => if s = "" then b else s
  | none => b

/-- Python truthiness of an optional string argument (`None` and `""` are falsy). -/
def optTruthy : Option String → Bool
  | none => false
  | some s => !(s == "")

/-- Event from `src/modules/memory/event.py`: subject/predicate/object plus
describe, address list and emoji. Defaults applied by `__init__` (`predicate or
"此时"`, `object or "空闲"`) are applied by the constructors used below. -/
structure Event where
  subject : String
  predicate : String
  object : String
  describe : String
  address : List String
  emoji : String
deriving DecidableEq, Repr

/-- Key used by `Event.__hash__`/`__eq__`: the tuple
`(subject, predicate, object, describe, ":".join(address))`. -/
def eventKey (e : Event) : String × String × String × String × String :=
  (e.subject, e.predicate, e.object, e.describe, String.intercalate ":" e.address)

/-- Event equality as in `Event.__eq__`: equality of the hashed 5-tuple
(hash collisions are not modeled). -/
def eventEq (a b : Event) : Bool :=
  decide (eventKey a = eventKey b)

/-- Event.update from `src/modules/memory/event.py`:
`self.predicate = predicate or "此时"`, `self.object = object or "空闲"`,
`self._describe = describe or self._describe`; the other fields are untouched. -/
def eventUpdate (e : Event) (predicate object describe : Option String) : Event :=
  { e with
    predicate := pyOrStr predicate "此时"
    object := pyOrStr object "空闲"
    describe := pyOrStr describe e.describe }

/-- Event.fit: each of subject/predicate/object is checked only when the
argument is truthy. -/
def eventFit (e : Event) (s p o : Option String) : Bool :=
  if optTruthy s && !(e.subject == s.getD "") then false
  else if optTruthy p && !(e.predicate == p.getD "") then false
  else if optTruthy o && !(e.object == o.getD "") then false
  else true

/-- Tile from `src/modules/maze.py`. `events` is the insertion-ordered dict
`self._events` (keys `"e_" + str(self.event_cnt)`), `eventCnt` is
`self.event_cnt`. The location bookkeeping fields (`coord`, `address`,
`address_map`) are not consulted by any operation modeled here and are omitted. -/
structure Tile where
  collision : Bool := false
  events : List (String × Event) := []
  eventCnt : Nat := 0
deriving DecidableEq, Repr

/-- Tile.add_event: if every stored event differs from `event` (by `Event.__eq__`),
insert it under the fresh key `"e_" + str(self.event_cnt)` and bump the counter;
either way return the event. -/
def tileAddEvent (t : Tile) (e : Event) : Tile × Event :=
  if t.events.all (fun kv => !(eventEq kv.2 e)) then
    ({ t with
        events := t.events ++ [("e_" ++ toString t.eventCnt, e)]
        eventCnt := t.eventCnt + 1 }, e)
  else (t, e)

/-- Tile.update_events with the default `match="subject"`: every stored event
whose subject equals the new event's subject is replaced by the new event
(same tag), and the replaced entries are returned. -/
def tileUpdateEvents (t : Tile) (e : Event) : Tile × List (String × Event) :=
  ({ t with
      events := t.events.map (fun kv => if kv.2.subject == e.subject then (kv.1, e) else kv) },
   (t.events.filter (fun kv => kv.2.subject == e.subject)).map (fun kv => (kv.1, e)))

/-- Pairwise distinctness of the stored events of a tile under `Event.__eq__`. -/
def tileEventsDistinct (t : Tile) : Prop :=
  t.events.Pairwise (fun a b => eventEq a.2 b.2 = false)

/-- Concrete events used in counterexamples: two distinct events sharing a subject. -/
def eIdle : Event :=
  ⟨"李青", "此时", "空闲", "", ["小镇", "公园", "草地", "长椅"], ""⟩

/-- Second concrete event with the same subject as `eIdle` but a different
predicate/object, as produced by a later `add_event` on the same tile. -/
def eChat : Event :=
  ⟨"李青", "对话", "王芳", "李青 对话 王芳", ["小镇", "公园", "草地", "长椅"], ""⟩

/-- Tile obtained by adding `eIdle` and then `eChat` to a fresh tile. -/
def tTwoSubjects : Tile :=
  (tileAddEvent (tileAddEvent { } eIdle).1 eChat).1

/-- Coordinate `(x, y)` over the tile grid, as Python int pairs. -/
abbrev Coord : Type := Int × Int

/-- Maze from `src/modules/maze.py`: `maze_width`/`maze_height` from the config
and the grid `self.tiles` (rows indexed by `y`, columns by `x`). The
address-to-tiles reverse index is not consulted by the operations modeled here. -/
structure Maze where
  mazeWidth : Nat
  mazeHeight : Nat
  tiles : List (List Tile)
deriving Repr

/-- Maze.tile_at: `self.tiles[coord[1]][coord[0]]` with Python list indexing
(negative wrap, error out of range). -/
def tileAt (mz : Maze) (c : Coord) : Option Tile :=
  (pyNth mz.tiles c.2).bind (fun row => pyNth row c.1)

/-- Maze.get_around: the four raw neighbors in order left/right/up/down; with
`no_collision=True` (the default) each is kept only when `tile_at(c).collision`
is false, and any failing `tile_at` lookup fails the whole call (an
`IndexError` in the source). The coordinates are not clamped to the grid. -/
def getAround (mz : Maze) (c : Coord) (noCollision : Bool := true) : Option (List Coord) :=
  let coords : List Coord := [(c.1 - 1, c.2), (c.1 + 1, c.2), (c.1, c.2 - 1), (c.1, c.2 + 1)]
  if noCollision then
    coords.foldr
      (fun x acc => do
        let t ← tileAt mz x
        let r ← acc
        pure (if t.collision then r else x :: r))
      (some [])
  else some coords

/-- Scratch grid of BFS step distances, `map` in `Maze.find_path`. -/
abbrev Grid : Type := List (List Nat)

/-- Reading `map[c[1]][c[0]]` with Python indexing. -/
def gridAt (g : Grid) (c : Coord) : Option Nat :=
  (pyNth g c.2).bind (fun row => pyNth row c.1)

/-- Writing `map[c[1]][c[0]] = v`; the source writes only after checking that
`c` is strictly inside the grid. -/
def gridSet (g : Grid) (c : Coord) (v : Nat) : Grid :=
  match pyIndex g.length c.2 with
  | some y =>
    match g.get? y with
    | some row => g.set y (pySet row c.1 v)
    | none => g
  | none => g

/-- Zero-filled `maze_height × maze_width` scratch grid, as built at the top of
`Maze.find_path`. -/
def mkGrid (w h : Nat) : Grid :=
  List.replicate h (List.replicate w 0)

/-- State of the BFS while-loop in `Maze.find_path`: the step-distance grid,
the current frontier and the persistent visited set (kept as an
insertion-ordered list; only membership is consulted). -/
structure BFSState where
  map : Grid
  frontier : List Coord
  visited : List Coord
deriving DecidableEq, Repr

/-- Body of the inner candidate check of the BFS: a neighbor `c` of a frontier
cell with distance `fval` is recorded when it is strictly inside the grid, its
distance is still 0 and it has not been visited. -/
def bfsVisit (w h : Nat) (fval : Nat) (c : Coord)
    (acc : Grid × List Coord × List Coord) : Grid × List Coord × List Coord :=
  let (mp, nf, vis) := acc
  if 0 < c.1 ∧ c.1 < (w : Int) - 1 ∧ 0 < c.2 ∧ c.2 < (h : Int) - 1 ∧
      gridAt mp c = some 0 ∧ c ∉ vis then
    (gridSet mp c (fval + 1), nf ++ [c], vis ++ [c])
  else (mp, nf, vis)

/-- Processing of the whole frontier within one iteration of the BFS while-loop:
frontier cells are taken in order, and for each of them the walkable neighbors
from `get_around` are checked in order. Lookup failures (IndexError) abort. -/
def stepFrontierList (mz : Maze) :
    List Coord → Grid → List Coord → List Coord → Option (Grid × List Coord × List Coord)
  | [], mp, nf, vis => some (mp, nf, vis)
  | f :: rest, mp, nf, vis => do
    let fval ← gridAt mp f
    let nbrs ← getAround mz f true
    let (mp', nf', vis') :=
      nbrs.foldl (fun acc c => bfsVisit mz.mazeWidth mz.mazeHeight fval c acc) (mp, nf, vis)
    stepFrontierList mz rest mp' nf' vis'

/-- One iteration of the BFS while-loop of `Maze.find_path`: process every
frontier cell, then replace the frontier by the freshly discovered cells. -/
def stepBFS (mz : Maze) (s : BFSState) : Option BFSState :=
  (stepFrontierList mz s.frontier s.map [] s.visited).map
    (fun r => ⟨r.1, r.2.1, r.2.2⟩)

/-- Fuel-bounded run of the BFS while-loop `while map[dst][dst] == 0`. Returns
the state at loop exit; `none` when the fuel runs out with the condition still
true (the source would keep looping) or a lookup fails. -/
def bfsRun (mz : Maze) (dst : Coord) : Nat → BFSState → Option BFSState
  | 0, s =>
    match gridAt s.map dst with
    | some v => if v ≠ 0 then some s else none
    | none => none
  | n + 1, s =>
    match gridAt s.map dst with
    | some v =>
      if v ≠ 0 then some s
      else (stepBFS mz s).bind (bfsRun mz dst n)
    | none => none

/-- Initial BFS state of `Maze.find_path`: zero grid with the source marked 1,
frontier `[src_coord]`, empty visited set. -/
def initBFS (mz : Maze) (src : Coord) : BFSState :=
  ⟨gridSet (mkGrid mz.mazeWidth mz.mazeHeight) src 1, [src], []⟩

/-- Sequential scan of the backtracking inner for-loop: find the first neighbor
whose recorded distance equals `target`, propagating a lookup error. -/
def backFind (mp : Grid) (target : Nat) : List Coord → Option (Option Coord)
  | [] => some none
  | c :: rest =>
    match gridAt mp c with
    | none => none
    | some v => if v = target then some (some c) else backFind mp target rest

/-- Backtracking while-loop of `Maze.find_path`: starting from `step =
map[dst]` and `path = [dst]`, while `step > 1` append the first neighbor of the
path's last cell whose distance is `step - 1`, then decrement `step`. -/
def backtrack (mz : Maze) (mp : Grid) : Nat → List Coord → Option (List Coord)
  | 0, path => some path
  | 1, path => some path
  | n + 2, path => do
    let last ← path.getLast?
    let nbrs ← getAround mz last true
    let found ← backFind mp (n + 1) nbrs
    let path' := match found with
      | some c => path ++ [c]
      | none => path
    backtrack mz mp (n + 1) path'

/-- Maze.find_path with explicit fuel for the unbounded BFS while-loop: run the
BFS from `src`, read the distance of `dst`, backtrack and reverse. `none` means
the source either raised or would loop beyond the given fuel. -/
def findPath (fuel : Nat) (mz : Maze) (src dst : Coord) : Option (List Coord) := do
  let final ← bfsRun mz dst fuel (initBFS mz src)
  let stepv ← gridAt final.map dst
  let path ← backtrack mz final.map stepv [dst]
  pure path.reverse

/-- Walkable tile. -/
def openTile : Tile := { }

/-- Obstacle tile (`collision=True`). -/
def wallTile : Tile := { collision := true }

/-- Row of tiles from collision flags. -/
def rowOfFlags (flags : List Bool) : List Tile :=
  flags.map (fun b => if b then wallTile else openTile)

/-- Corridor maze of spec scenario 2: a 9×5 grid whose only walkable tiles form
the single-tile-wide corridor `(2,2) … (6,2)`. -/
def corridorMaze : Maze :=
  ⟨9, 5,
   [List.replicate 9 wallTile,
    List.replicate 9 wallTile,
    rowOfFlags [true, true, false, false, false, false, false, true, true],
    List.replicate 9 wallTile,
    List.replicate 9 wallTile]⟩

/-- The corridor maze with tile `(4,2)` additionally blocked, so `(6,2)` is not
reachable from `(2,2)`. -/
def blockedCorridor : Maze :=
  ⟨9, 5,
   [List.replicate 9 wallTile,
    List.replicate 9 wallTile,
    rowOfFlags [true, true, false, false, true, false, false, true, true],
    List.replicate 9 wallTile,
    List.replicate 9 wallTile]⟩

/-- BFS state of the blocked corridor after one while-loop iteration: `(3,2)`
discovered at distance 2. -/
def blockedS1 : BFSState :=
  ⟨[List.replicate 9 0,
    List.replicate 9 0,
    [0, 0, 1, 2, 0, 0, 0, 0, 0],
    List.replicate 9 0,
    List.replicate 9 0],
   [(3, 2)], [(3, 2)]⟩

/-- BFS state of the blocked corridor after two while-loop iterations: the
frontier is exhausted while the destination's distance is still 0, so every
further iteration reproduces this state and the loop never exits. -/
def blockedS2 : BFSState :=
  ⟨[List.replicate 9 0,
    List.replicate 9 0,
    [0, 0, 1, 2, 0, 0, 0, 0, 0],
    List.replicate 9 0,
    List.replicate 9 0],
   [], [(3, 2)]⟩

/-- Fully walkable `w × h` maze (used for the `get_around` corner analysis). -/
def openMaze (w h : Nat) : Maze :=
  ⟨w, h, List.replicate h (List.replicate w openTile)⟩

/-- Plan dict of `src/modules/memory/schedule.py`: describe, start and duration
in minutes since midnight, and an optional decomposition into sub-plans. The
`idx` field is never consulted by the operations modeled here. -/
inductive Plan where
  | mk (describe : String) (start : Int) (duration : Int) (decompose : List Plan)

/-- Describe field of a plan. -/
def Plan.describe : Plan → String
  | .mk d _ _ _ => d

/-- Start minute of a plan. -/
def Plan.start : Plan → Int
  | .mk _ s _ _ => s

/-- Duration of a plan in minutes. -/
def Plan.duration : Plan → Int
  | .mk _ _ du _ => du

/-- Decomposition list of a plan. -/
def Plan.decompose : Plan → List Plan
  | .mk _ _ _ dec => dec

/-- Plan end time as computed by `Schedule.plan_stamps`: `start + duration`. -/
def planEnd (p : Plan) : Int :=
  p.start + p.duration

/-- Inner for-loop of `Schedule.current_plan` over `plan["decompose"]`: skip
sub-plans whose end is at or before the current minute, return the first one
still running. -/
def findSubPlan : List Plan → Int → Option Plan
  | [], _ => none
  | dp :: rest, now => if planEnd dp ≤ now then findSubPlan rest now else some dp

/-- Outer for-loop of `Schedule.current_plan`: skip plans already over; within
the first running plan return its first running sub-plan, or the plan itself
twice when none is running. -/
def currentPlanLoop : List Plan → Int → Option (Plan × Plan)
  | [], _ => none
  | p :: rest, now =>
    if planEnd p ≤ now then currentPlanLoop rest now
    else
      match findSubPlan p.decompose now with
      | some dp => some (p, dp)
      | none => some (p, p)

/-- Schedule.current_plan at `now` minutes since midnight. When the for-loop
falls through, the source evaluates `self.daily_schedule[-1]`, which raises
`IndexError` on an empty schedule (the `none` arm). -/
def currentPlan (plans : List Plan) (now : Int) : Option (Plan × Plan) :=
  match currentPlanLoop plans now with
  | some r => some r
  | none =>
    match plans.getLast? with
    | some lastPlan => some (lastPlan, lastPlan)
    | none => none

/-- Substring test on char lists: some tail of the haystack starts with the
needle (the semantics of Python's `needle in hay`). -/
def subListAt (needle : List Char) : List Char → Bool
  | [] => needle.isPrefixOf []
  | c :: rest => needle.isPrefixOf (c :: rest) || subListAt needle rest

/-- Python `needle in hay` on strings. -/
def strContains (hay needle : String) : Bool :=
  subListAt needle.data hay.data

/-- Schedule.decompose, branch for branch from the source: an already
decomposed plan is not decomposable; then the keyword heuristic over the
plan's describe decides, consulting `duration <= 60` only in its two final
(unreachable) branches. -/
def scheduleDecompose (p : Plan) : Bool :=
  if p.decompose.length > 0 then false
  else
    let d := p.describe
    if !(strContains d "sleep") && !(strContains d "bed") then true
    else if !(strContains d "睡") && !(strContains d "床") then true
    else if strContains d "sleeping" || strContains d "asleep" || strContains d "in bed" then
      false
    else if strContains d "睡" || strContains d "床" then false
    else if strContains d "sleep" || strContains d "bed" then decide (p.duration ≤ 60)
    else if strContains d "睡" || strContains d "床" then decide (p.duration ≤ 60)
    else true

/-- Successful path of `Associate.add_node` after the vector index accepted the
node: the index (`store`, modeled as the list of stored node ids) gained the
node, the id is prepended to the type list, and when
`len(memory) >= max_memory > 0` the ids from position `max_memory` on are
deleted from the index while the list is cut to `memory[: max_memory - 1]`. -/
def associateAddNode (memory store : List String) (nodeId : String) (maxMemory : Int) :
    List String × List String :=
  let store1 := store ++ [nodeId]
  let memory1 := nodeId :: memory
  if maxMemory ≤ (memory1.length : Int) ∧ 0 < maxMemory then
    (memory1.take (maxMemory.toNat - 1),
     store1.filter (fun s => !((memory1.drop maxMemory.toNat).contains s)))
  else (memory1, store1)

/-- Python value returned by a prompt callback, restricted to the shapes the
call sites produce; `pnone` is Python `None`. -/
inductive PyVal where
  | pnone
  | pstr (s : String)
  | pbool (b : Bool)
  | pint (n : Int)
deriving DecidableEq, Repr

/-- Python truthiness of a `PyVal` (`response or failsafe` keys on this). -/
def pyTruthy : PyVal → Bool
  | .pnone => false
  | .pstr s => !(s == "")
  | .pbool b => b
  | .pint n => !(n == 0)

/-- Outcome of one `_completion` attempt together with its callback: either an
exception was raised somewhere in the try block, or a parsed value came back. -/
inductive Attempt where
  | raised
  | parsed (v : PyVal)

/-- Retry for-loop of `LLMModel.completion`: at attempt `i` with `r` tries
left, an exception sets `response = None` and continues; a parsed value becomes
the response and the loop breaks when it is not `None`. The accumulator is the
`response` variable (initially Python `None`). -/
def completionLoop (attempts : Nat → Attempt) : Nat → Nat → PyVal → PyVal
  | _, 0, response => response
  | i, r + 1, _ =>
    match attempts i with
    | .raised => completionLoop attempts (i + 1) r .pnone
    | .parsed v => if v = .pnone then completionLoop attempts (i + 1) r v else v

/-- LLMModel.completion: run the retry loop, then `return response or failsafe`. -/
def llmCompletion (attempts : Nat → Attempt) (retry : Nat) (failsafe : PyVal) : PyVal :=
  let response := completionLoop attempts 0 retry .pnone
  if pyTruthy response then response else failsafe

/-- First attempt within the retry budget that parses to a non-`None` value. -/
def firstParsed (attempts : Nat → Attempt) : Nat → Nat → Option PyVal
  | _, 0 => none
  | i, r + 1 =>
    match attempts i with
    | .raised => firstParsed attempts (i + 1) r
    | .parsed v => if v = .pnone then firstParsed attempts (i + 1) r else some v

/-- Modelled from the amended reading of the spec sentence: completion returns
the first parsed non-`None` response within the retry budget when that response
is truthy, and otherwise the failsafe. Compared against `llmCompletion` below. -/
def llmCompletionSpec (attempts : Nat → Attempt) (retry : Nat) (failsafe : PyVal) : PyVal :=
  match firstParsed attempts 0 retry with
  | some v => if pyTruthy v then v else failsafe
  | none => failsafe

/-- Concept node (class `Concept`) of `src/modules/memory/associate.py` (the fields the percept
path consults; the time fields are not). -/
structure ConceptNode where
  nodeId : String
  nodeType : String
  event : Event
  poignancy : Int
deriving DecidableEq, Repr

/-- Concept.from_event. -/
def conceptFromEvent (nodeId nodeType : String) (e : Event) (poignancy : Int) : ConceptNode :=
  ⟨nodeId, nodeType, e, poignancy⟩

/-- Agent._add_concept: poignancy is 1 for idle events and otherwise the
`poignancy_chat`/`poignancy_event` completion result (`completionScore`); then
`associate.add_node` runs (its outcome is `addNodeResult`). When it returned
`None`, the fallback branch returns a temporary non-indexed concept; after the
`if concept is None` block the source function body ends without a return
statement, so on a successful insert Python returns `None`. The first component
is the computed poignancy score. -/
def agentAddConcept (eType : String) (e : Event) (completionScore : Int)
    (addNodeResult : Option ConceptNode) (tmpId : String) : Int × Option ConceptNode :=
  let poignancy : Int :=
    if eventFit e none (some "is") (some "idle") then 1
    else if eventFit e none (some "此时") (some "空闲") then 1
    else completionScore
  (poignancy,
   match addNodeResult with
   | none => some (conceptFromEvent tmpId eType e poignancy)
   | some _ => none)

/-- Classification in `Agent.percept`:
`node_type = "chat" if event.fit(self.name, "对话") else "event"`. -/
def perceptNodeType (name : String) (e : Event) : String :=
  if eventFit e (some name) (some "对话") none then "chat" else "event"

/-- Handling of `_add_concept`'s result in `Agent.percept`: when a concept came
back, its poignancy is added to `status["poignancy"]` and it joins the frame's
concepts; a `None` result only logs a warning and changes nothing. -/
def perceptApplyConcept (poignancyStatus : Int) (concepts : List ConceptNode)
    (node : Option ConceptNode) : Int × List ConceptNode :=
  match node with
  | some c => (poignancyStatus + c.poignancy, concepts ++ [c])
  | none => (poignancyStatus, concepts)

/-- Concrete non-idle perceived event for the `_add_concept` analysis. -/
def c1Event : Event :=
  ⟨"赵小明", "正在", "做饭", "赵小明 正在 做饭", ["小镇", "家", "厨房", "炉灶"], ""⟩

/-- Concept that a successful `associate.add_node` returns for `c1Event` with
poignancy score 7. -/
def c1Node : ConceptNode :=
  conceptFromEvent "node_1" "event" c1Event 7


/-- C10: Event.update with predicate and object omitted or falsy resets them to
the defaults "此时" and "空闲" instead of preserving the previous values, the
describe field keeps its previous value when the describe argument is omitted
or falsy, and subject, address and emoji are never changed by update. -/
theorem C10_event_update_defaults (e : Event) (p o d : Option String) :
    ((p = none ∨ p = some "") → (eventUpdate e p o d).predicate = "此时") ∧
    ((o = none ∨ o = some "") → (eventUpdate e p o d).object = "空闲") ∧
    ((d = none ∨ d = some "") → (eventUpdate e p o d).describe = e.describe) ∧
    (eventUpdate e p o d).subject = e.subject ∧
    (eventUpdate e p o d).address = e.address ∧
    (eventUpdate e p o d).emoji = e.emoji := by
  refine ⟨?_, ?_, ?_, rfl, rfl, rfl⟩ <;>
    rintro (rfl | rfl) <;> simp [eventUpdate, pyOrStr]

/-- Witness for C10 at a concrete event: predicate omitted, object passed as the
empty string, describe omitted. -/
theorem C10_event_update_defaults_witness :
    (eventUpdate eChat none (some "") none).predicate = "此时" ∧
    (eventUpdate eChat none (some "") none).object = "空闲" ∧
    (eventUpdate eChat none (some "") none).describe = eChat.describe ∧
    (eventUpdate eChat none (some "") none).subject = eChat.subject ∧
    (eventUpdate eChat none (some "") none).address = eChat.address ∧
    (eventUpdate eChat none (some "") none).emoji = eChat.emoji := by
  obtain ⟨h1, h2, h3, h4, h5, h6⟩ := C10_event_update_defaults eChat none (some "") none
  exact ⟨h1 (Or.inl rfl), h2 (Or.inr rfl), h3 (Or.inl rfl), h4, h5, h6⟩

/-- C9: Tile.add_event is idempotent for events equal under `Event.__eq__`:
when an equal event is already stored, the tile's event map and counter are
unchanged and the event is still returned; consequently a tile whose stored
events are pairwise distinct keeps that property under add_event. -/
theorem C9_add_event_idempotent (t : Tile) (e : Event) :
    ((∃ kv, kv ∈ t.events ∧ eventEq kv.2 e = true) → tileAddEvent t e = (t, e)) ∧
    (tileEventsDistinct t → tileEventsDistinct (tileAddEvent t e).1) := by
  constructor
  · rintro ⟨kv, hmem, heq⟩
    unfold tileAddEvent
    rw [if_neg]
    intro hall
    have h := List.all_eq_true.mp hall kv hmem
    rw [heq] at h
    exact Bool.false_ne_true (by simpa using h.symm)
  · intro hd
    unfold tileAddEvent
    by_cases hall : t.events.all (fun kv => !(eventEq kv.2 e)) = true
    · rw [if_pos hall]
      unfold tileEventsDistinct at hd ⊢
      simp only
      rw [List.pairwise_append]
      refine ⟨hd, List.pairwise_singleton _ _, ?_⟩
      intro a ha b hb
      rw [List.mem_singleton] at hb
      subst hb
      have h := List.all_eq_true.mp hall a ha
      simpa using h
    · rw [if_neg hall]
      exact hd

/-- Tile holding exactly one event, used as the witness input for C9. -/
def tOneEvent : Tile :=
  (tileAddEvent { } eIdle).1

/-- Witness for C9: re-adding the already present event `eIdle` to `tOneEvent`
leaves the tile unchanged and preserves pairwise distinctness. -/
theorem C9_add_event_idempotent_witness :
    tileAddEvent tOneEvent eIdle = (tOneEvent, eIdle) ∧
    tileEventsDistinct (tileAddEvent tOneEvent eIdle).1 := by
  obtain ⟨h1, h2⟩ := C9_add_event_idempotent tOneEvent eIdle
  refine ⟨h1 ⟨("e_0", eIdle), by decide, by decide⟩, h2 ?_⟩
  unfold tileEventsDistinct
  decide

/-- C3 counterexample: adding `eChat` to a tile already holding `eIdle` (same
subject "李青", different predicate/object) yields a tile with two events for
that subject, so Tile.add_event does not replace by subject and the per-subject
uniqueness invariant fails. -/
theorem C3_subject_uniqueness_counterexample :
    tTwoSubjects.events.length = 2 ∧
    (tTwoSubjects.events.filter (fun kv => kv.2.subject == "李青")).length = 2 := by
  decide

/-- C3 amended: per-subject uniqueness is not maintained by Tile.add_event,
which only skips events equal under `Event.__eq__` and otherwise appends a new
entry even when the subject is already present; per-subject replacement is
performed by Tile.update_events, where every stored event whose subject matches
is overwritten by the new event and all other entries are kept unchanged. -/
theorem C3_tile_events_amended (t : Tile) (e : Event) (kv : String × Event) :
    (kv ∈ (tileUpdateEvents t e).1.events →
      kv.2 = e ∨ (kv ∈ t.events ∧ kv.2.subject ≠ e.subject)) ∧
    ((∀ kv' ∈ t.events, eventEq kv'.2 e = false) →
      (tileAddEvent t e).1.events = t.events ++ [("e_" ++ toString t.eventCnt, e)]) := by
  constructor
  · intro hkv
    unfold tileUpdateEvents at hkv
    simp only at hkv
    rw [List.mem_map] at hkv
    obtain ⟨kv0, hmem, heq⟩ := hkv
    by_cases h : kv0.2.subject == e.subject
    · rw [if_pos h] at heq
      left
      rw [← heq]
    · rw [if_neg h] at heq
      right
      subst heq
      exact ⟨hmem, by simpa using h⟩
  · intro hall
    unfold tileAddEvent
    rw [if_pos]
    rw [List.all_eq_true]
    intro kv' hmem
    simpa using hall kv' hmem

/-- Witness for C3 at concrete inputs: the replaced entry of
`update_events(tTwoSubjects, eChat)` and an append by `add_event` on a fresh
tile. -/
theorem C3_tile_events_amended_witness :
    (("e_0", eChat).2 = eChat ∨
      (("e_0", eChat) ∈ tTwoSubjects.events ∧ ("e_0", eChat).2.subject ≠ eChat.subject)) ∧
    (tileAddEvent { } eChat).1.events =
      ({ } : Tile).events ++ [("e_" ++ toString ({ } : Tile).eventCnt, eChat)] := by
  exact ⟨(C3_tile_events_amended tTwoSubjects eChat ("e_0", eChat)).1 (by decide),
         (C3_tile_events_amended { } eChat ("e_0", eChat)).2 (by decide)⟩

/-- Plan whose describe contains only Chinese sleep keywords, with duration
longer than one hour and an empty decomposition. -/
def c6Plan : Plan :=
  Plan.mk "睡觉" 780 120 []

/-- C6 counterexample: the claim says a plan whose describe contains only the
Chinese sleep keyword "睡" with duration > 60 is not decomposable, but
Schedule.decompose returns True on it: the first keyword test
(`"sleep" not in describe and "bed" not in describe`) already exits. -/
theorem C6_decompose_chinese_sleep_counterexample :
    scheduleDecompose c6Plan = true := by
  decide

/-- C6 amended: for every plan with an empty decomposition, Schedule.decompose
returns false exactly when the describe contains both an English sleep keyword
("sleep" or "bed") and a Chinese one ("睡" or "床"); the plan's duration is
never consulted (the `duration <= 60` branches are unreachable), so in
particular a describe with only Chinese sleep keywords is decomposable for any
duration. -/
theorem C6_decompose_amended (d : String) (st du : Int) :
    scheduleDecompose (Plan.mk d st du []) =
      !((strContains d "sleep" || strContains d "bed") &&
        (strContains d "睡" || strContains d "床")) := by
  unfold scheduleDecompose
  simp only [Plan.decompose, Plan.describe, Plan.duration, List.length_nil]
  cases h1 : strContains d "sleep" <;> cases h2 : strContains d "bed" <;>
    cases h3 : strContains d "睡" <;> cases h4 : strContains d "床" <;>
      cases h5 : strContains d "sleeping" <;> cases h6 : strContains d "asleep" <;>
        cases h7 : strContains d "in bed" <;>
          simp [h1, h2, h3, h4, h5, h6, h7]

/-- Helper for C8: when every plan's end is at or before the current minute,
the for-loop of Schedule.current_plan skips all plans and falls through. -/
theorem currentPlanLoop_none_of_ended :
    ∀ (plans : List Plan) (now : Int), (∀ p ∈ plans, planEnd p ≤ now) →
      currentPlanLoop plans now = none := by
  intro plans
  induction plans with
  | nil => intro now _; rfl
  | cons p rest ih =>
    intro now hall
    unfold currentPlanLoop
    rw [if_pos (hall p (List.mem_cons_self p rest))]
    exact ih now (fun q hq => hall q (List.mem_cons_of_mem p hq))

/-- C8: Schedule.current_plan fails (IndexError on `daily_schedule[-1]`) only
for an empty schedule; for every non-empty schedule it totally returns a
(plan, sub-plan) pair, and when every plan's end is at or before the current
minutes-since-midnight it returns the last plan paired with itself. -/
theorem C8_current_plan_total (plans : List Plan) (now : Int) :
    (plans = [] → currentPlan plans now = none) ∧
    (plans ≠ [] → ∃ pr, currentPlan plans now = some pr) ∧
    ((∀ p ∈ plans, planEnd p ≤ now) →
      ∀ lp, plans.getLast? = some lp → currentPlan plans now = some (lp, lp)) := by
  refine ⟨?_, ?_, ?_⟩
  · rintro rfl
    rfl
  · intro hne
    unfold currentPlan
    cases h : currentPlanLoop plans now with
    | some r => exact ⟨r, rfl⟩
    | none =>
      cases hl : plans.getLast? with
      | some lp => exact ⟨(lp, lp), rfl⟩
      | none => exact absurd (List.getLast?_eq_none_iff.mp hl) hne
  · intro hall lp hlp
    unfold currentPlan
    rw [currentPlanLoop_none_of_ended plans now hall, hlp]

/-- Two-plan schedule whose plans have both ended by minute 800. -/
def c8Plans : List Plan :=
  [Plan.mk "晨跑" 0 420 [], Plan.mk "工作" 420 300 []]

/-- Witness for C8 at a concrete schedule and time: minute 800 is past both
plans, so current_plan returns the last plan twice, and a pair exists. -/
theorem C8_current_plan_total_witness :
    (∃ pr, currentPlan c8Plans 800 = some pr) ∧
    currentPlan c8Plans 800 = some (Plan.mk "工作" 420 300 [], Plan.mk "工作" 420 300 []) := by
  refine ⟨(C8_current_plan_total c8Plans 800).2.1 ?_,
          (C8_current_plan_total c8Plans 800).2.2 ?_ (Plan.mk "工作" 420 300 []) ?_⟩
  · simp [c8Plans]
  · intro p hp
    simp only [c8Plans, List.mem_cons, List.mem_singleton, List.not_mem_nil, or_false] at hp
    rcases hp with rfl | rfl <;> norm_num [planEnd, Plan.start, Plan.duration]
  · rfl

/-- C4 counterexample: with max_memory = 2 and type list ["b", "a"] (store
["b", "a"]), inserting "c" triggers the trim: the list keeps only ["c"], which
is max_memory − 1 = 1 entries rather than the newest 2, and "b" leaves the
list while remaining stored in the vector store. -/
theorem C4_add_node_eviction_counterexample :
    (associateAddNode ["b", "a"] ["b", "a"] "c" 2).1 = ["c"] ∧
    (associateAddNode ["b", "a"] ["b", "a"] "c" 2).1 ≠ ["c", "b"] ∧
    "b" ∈ (associateAddNode ["b", "a"] ["b", "a"] "c" 2).2 ∧
    "b" ∉ (associateAddNode ["b", "a"] ["b", "a"] "c" 2).1 := by
  decide

/-- C4 amended: after the insert, whenever the type list's length has reached
max_memory (not only when it exceeds it), the entries from index max_memory on
are deleted from the vector store and the list is cut to its newest
max_memory − 1 entries; the entry at index max_memory − 1 (here any `x` in the
first max_memory but not the first max_memory − 1 entries) leaves the list yet
stays in the vector store. -/
theorem C4_add_node_eviction_amended (mem store : List String) (nodeId : String)
    (M : Nat) (x : String) (hM : 0 < M) (hlen : M ≤ mem.length + 1)
    (hnd : (nodeId :: mem).Nodup) (hsub : ∀ y ∈ mem, y ∈ store)
    (hxin : x ∈ (nodeId :: mem).take M) (hxout : x ∉ (nodeId :: mem).take (M - 1)) :
    (associateAddNode mem store nodeId (M : Int)).1 = (nodeId :: mem).take (M - 1) ∧
    (∀ y ∈ (nodeId :: mem).drop M, y ∉ (associateAddNode mem store nodeId (M : Int)).2) ∧
    x ∈ (associateAddNode mem store nodeId (M : Int)).2 ∧
    x ∉ (associateAddNode mem store nodeId (M : Int)).1 := by
  have hcond : (M : Int) ≤ (((nodeId :: mem).length : Nat) : Int) ∧ 0 < (M : Int) := by
    constructor <;> simp <;> omega
  have hdisj : List.Disjoint ((nodeId :: mem).take M) ((nodeId :: mem).drop M) :=
    List.disjoint_take_drop hnd le_rfl
  simp only [associateAddNode, if_pos hcond, Int.toNat_natCast]
  refine ⟨trivial, ?_, ?_, hxout⟩
  · intro y hy hmem
    rw [List.mem_filter] at hmem
    have hby := hmem.2
    simp only [Bool.not_eq_true'] at hby
    simp at hby
    exact hby hy
  · rw [List.mem_filter]
    constructor
    · have hx : x ∈ nodeId :: mem := List.take_subset M _ hxin
      rw [List.mem_cons] at hx
      rcases hx with rfl | hx
      · exact List.mem_append_right _ (List.mem_singleton_self x)
      · exact List.mem_append_left _ (hsub x hx)
    · simp only [Bool.not_eq_true']
      have hnot : x ∉ List.drop M (nodeId :: mem) := fun hdrop => hdisj hxin hdrop
      simp [hnot]

/-- Witness for C4 at the concrete input of the counterexample, with
max_memory 2 and distinguished entry "b" (position max_memory − 1). -/
theorem C4_add_node_eviction_amended_witness :
    (associateAddNode ["b", "a"] ["b", "a"] "c" ((2 : Nat) : Int)).1 =
      ("c" :: ["b", "a"]).take (2 - 1) ∧
    (∀ y ∈ ("c" :: ["b", "a"]).drop 2,
      y ∉ (associateAddNode ["b", "a"] ["b", "a"] "c" ((2 : Nat) : Int)).2) ∧
    "b" ∈ (associateAddNode ["b", "a"] ["b", "a"] "c" ((2 : Nat) : Int)).2 ∧
    "b" ∉ (associateAddNode ["b", "a"] ["b", "a"] "c" ((2 : Nat) : Int)).1 := by
  exact C4_add_node_eviction_amended ["b", "a"] ["b", "a"] "c" 2 "b"
    (by decide) (by decide) (by decide) (by decide) (by decide) (by decide)

/-- C5 counterexample: an attempt succeeds on the first try and its parsed
response is the empty string, yet completion returns the failsafe (the final
`return response or failsafe` keys on truthiness, not on success), so a
successful attempt's parsed response is not returned unchanged. -/
theorem C5_completion_falsy_counterexample :
    llmCompletion (fun _ => Attempt.parsed (PyVal.pstr "")) 10 (PyVal.pstr "failsafe") =
      PyVal.pstr "failsafe" ∧
    PyVal.pstr "failsafe" ≠ PyVal.pstr "" := by
  exact ⟨rfl, by decide⟩

/-- Helper for C5: the retry loop computes the first parsed non-None response
within the budget, or None when there is none. -/
theorem completionLoop_firstParsed (attempts : Nat → Attempt) :
    ∀ (r i : Nat), completionLoop attempts i r PyVal.pnone =
      (firstParsed attempts i r).getD PyVal.pnone := by
  intro r
  induction r with
  | zero => intro i; rfl
  | succ n ih =>
    intro i
    unfold completionLoop firstParsed
    cases h : attempts i with
    | raised => simpa using ih (i + 1)
    | parsed v =>
      by_cases hv : v = PyVal.pnone
      · subst hv
        simpa using ih (i + 1)
      · simp [hv]

/-- C5 amended: LLMModel.completion returns the first parsed non-None response
among the retry attempts when that response is truthy, and otherwise the
call-site failsafe; in particular the failsafe is returned not only when all
attempts failed but also when the first parsed response is falsy (empty
string, False, 0). -/
theorem C5_completion_amended (attempts : Nat → Attempt) (retry : Nat) (failsafe : PyVal) :
    llmCompletion attempts retry failsafe = llmCompletionSpec attempts retry failsafe := by
  unfold llmCompletion llmCompletionSpec
  rw [completionLoop_firstParsed]
  cases h : firstParsed attempts 0 retry with
  | none => simp [pyTruthy]
  | some v => simp

/-- C7 counterexample: on the all-walkable 3×3 maze, get_around at corner
(0,0) returns all four raw neighbors — including (−1,0) and (0,−1), which lie
outside the grid (their collision lookups wrap to the opposite edge under
Python negative indexing) — and at corner (2,0) the lookup of neighbor (3,0)
indexes past the row's end, so the call fails with an IndexError. -/
theorem C7_get_around_corner_counterexample :
    getAround (openMaze 3 3) (0, 0) true = some [(-1, 0), (1, 0), (0, -1), (0, 1)] ∧
    getAround (openMaze 3 3) (2, 0) true = none := by
  decide

/-- Helper for C7: Python indexing into a replicated list succeeds exactly on
indices in `[-n, n)`. -/
theorem pyNth_replicate (n : Nat) (a : α) (i : Int) :
    pyNth (List.replicate n a) i = if -(n : Int) ≤ i ∧ i < (n : Int) then some a else none := by
  unfold pyNth pyIndex
  rw [List.length_replicate]
  by_cases h1 : 0 ≤ i ∧ i < (n : Int)
  · rw [if_pos h1, if_pos (by omega)]
    simp only [Option.some_bind]
    rw [List.get?_eq_getElem?, List.getElem?_replicate, if_pos (by omega)]
  · rw [if_neg h1]
    by_cases h2 : -(n : Int) ≤ i ∧ i < 0
    · rw [if_pos h2, if_pos (by omega)]
      simp only [Option.some_bind]
      rw [List.get?_eq_getElem?, List.getElem?_replicate, if_pos (by omega)]
    · rw [if_neg h2, if_neg (by omega)]
      rfl

/-- Helper for C7: tile_at on the all-walkable maze succeeds exactly on
Python-valid indices and always yields the walkable tile. -/
theorem tileAt_openMaze (w h : Nat) (c : Coord) :
    tileAt (openMaze w h) c =
      if (-(h : Int) ≤ c.2 ∧ c.2 < (h : Int)) ∧ (-(w : Int) ≤ c.1 ∧ c.1 < (w : Int)) then
        some openTile
      else none := by
  unfold tileAt openMaze
  simp only
  rw [pyNth_replicate]
  by_cases hy : -(h : Int) ≤ c.2 ∧ c.2 < (h : Int)
  · rw [if_pos hy]
    simp only [Option.some_bind]
    rw [pyNth_replicate]
    by_cases hx : -(w : Int) ≤ c.1 ∧ c.1 < (w : Int)
    · rw [if_pos hx, if_pos ⟨hy, hx⟩]
    · rw [if_neg hx, if_neg (by tauto)]
  · rw [if_neg hy, if_neg (by tauto)]
    rfl

/-- C7 amended: Maze.get_around does not clamp to the grid: on corner (0,0) of
any fully walkable maze of width and height at least 2 it returns all four raw
neighbors, (−1,0) and (0,−1) included (their collision lookups wrap to the
opposite edge), and on the corner (w−1,0) adjacent to the right edge the
collision lookup of neighbor (w,0) indexes out of range, so the call raises
instead of returning the in-grid neighbors. -/
theorem C7_get_around_amended (w h : Nat) (hw : 2 ≤ w) (hh : 2 ≤ h) :
    getAround (openMaze w h) (0, 0) true = some [(-1, 0), (1, 0), (0, -1), (0, 1)] ∧
    getAround (openMaze w h) ((w : Int) - 1, 0) true = none := by
  have tLeft : tileAt (openMaze w h) (-1, 0) = some openTile := by
    rw [tileAt_openMaze]
    exact if_pos (by refine ⟨⟨?_, ?_⟩, ?_, ?_⟩ <;> omega)
  have tRight : tileAt (openMaze w h) (1, 0) = some openTile := by
    rw [tileAt_openMaze]
    exact if_pos (by refine ⟨⟨?_, ?_⟩, ?_, ?_⟩ <;> omega)
  have tUp : tileAt (openMaze w h) (0, -1) = some openTile := by
    rw [tileAt_openMaze]
    exact if_pos (by refine ⟨⟨?_, ?_⟩, ?_, ?_⟩ <;> omega)
  have tDown : tileAt (openMaze w h) (0, 1) = some openTile := by
    rw [tileAt_openMaze]
    exact if_pos (by refine ⟨⟨?_, ?_⟩, ?_, ?_⟩ <;> omega)
  have tOut : tileAt (openMaze w h) ((w : Int), 0) = none := by
    rw [tileAt_openMaze]
    refine if_neg ?_
    rintro ⟨-, -, hlt⟩
    omega
  constructor
  · unfold getAround
    simp [tLeft, tRight, tUp, tDown, openTile]
  · unfold getAround
    simp [tOut]

/-- Witness for C7 at the concrete 3×3 all-walkable maze. -/
theorem C7_get_around_amended_witness :
    getAround (openMaze 3 3) (0, 0) true = some [(-1, 0), (1, 0), (0, -1), (0, 1)] ∧
    getAround (openMaze 3 3) ((3 : Int) - 1, 0) true = none := by
  exact C7_get_around_amended 3 3 (by decide) (by decide)

/-- Helper for C2: one BFS iteration from the initial blocked-corridor state
discovers only (3,2). -/
theorem stepBFS_blocked_s0 :
    stepBFS blockedCorridor (initBFS blockedCorridor (2, 2)) = some blockedS1 := by
  decide

/-- Helper for C2: the next BFS iteration exhausts the frontier: (2,2) is
already marked and (4,2) is a collision tile. -/
theorem stepBFS_blocked_s1 : stepBFS blockedCorridor blockedS1 = some blockedS2 := by
  decide

/-- Helper for C2: with an empty frontier the BFS iteration is the identity,
so `blockedS2` is a fixed point of the loop body. -/
theorem stepBFS_blocked_s2 : stepBFS blockedCorridor blockedS2 = some blockedS2 := by
  decide

/-- Helper for C2: from the fixed point the loop never exits, whatever fuel. -/
theorem bfsRun_blocked_s2 :
    ∀ n, bfsRun blockedCorridor (6, 2) n blockedS2 = none := by
  intro n
  induction n with
  | zero => decide
  | succ k ih =>
    have hg : gridAt blockedS2.map (6, 2) = some 0 := by decide
    unfold bfsRun
    rw [hg]
    simp only [ne_eq, not_true_eq_false, if_false, stepBFS_blocked_s2, Option.some_bind]
    exact ih

/-- Helper for C2: from the state after one iteration the loop never exits. -/
theorem bfsRun_blocked_s1 :
    ∀ n, bfsRun blockedCorridor (6, 2) n blockedS1 = none := by
  intro n
  cases n with
  | zero => decide
  | succ k =>
    have hg : gridAt blockedS1.map (6, 2) = some 0 := by decide
    unfold bfsRun
    rw [hg]
    simp only [ne_eq, not_true_eq_false, if_false, stepBFS_blocked_s1, Option.some_bind]
    exact bfsRun_blocked_s2 k

/-- Helper for C2: from the initial state the BFS loop of find_path on the
blocked corridor never exits, whatever fuel it is given. -/
theorem bfsRun_blocked_s0 :
    ∀ n, bfsRun blockedCorridor (6, 2) n (initBFS blockedCorridor (2, 2)) = none := by
  intro n
  cases n with
  | zero => decide
  | succ k =>
    have hg : gridAt (initBFS blockedCorridor (2, 2)).map (6, 2) = some 0 := by decide
    unfold bfsRun
    rw [hg]
    simp only [ne_eq, not_true_eq_false, if_false, stepBFS_blocked_s0, Option.some_bind]
    exact bfsRun_blocked_s1 k

/-- C2 counterexample: on the blocked corridor the BFS loop state reaches, in
two iterations, a fixed point of the loop body in which the destination's
distance is still 0, so the `while map[dst] == 0` loop runs forever and
find_path never terminates — it does not return an empty list as claimed
(shown here also for the concrete fuel bound 50). -/
theorem C2_find_path_unreachable_counterexample :
    stepBFS blockedCorridor blockedS2 = some blockedS2 ∧
    gridAt blockedS2.map (6, 2) = some 0 ∧
    findPath 50 blockedCorridor (2, 2) (6, 2) = none := by
  decide

/-- C2 amended: for the unreachable destination of the blocked corridor,
find_path does not terminate: no amount of fuel makes its BFS loop exit
(callers must pre-check reachability or bound the search); for the reachable
corridor, find_path returns exactly the inclusive corridor path
[(2,2),(3,2),(4,2),(5,2),(6,2)]. -/
theorem C2_find_path_amended :
    (∀ fuel, findPath fuel blockedCorridor (2, 2) (6, 2) = none) ∧
    findPath 20 corridorMaze (2, 2) (6, 2) = some [(2, 2), (3, 2), (4, 2), (5, 2), (6, 2)] := by
  constructor
  · intro fuel
    unfold findPath
    rw [bfsRun_blocked_s0 fuel]
    rfl
  · decide

/-- C1: evaluation at the failing input. The perceived non-idle event
`c1Event` is classified as an ordinary "event" (it is not a "<A> 对话 <X>"
event of the perceiving agent 李青), its poignancy is the
poignancy_event score 7, and associate.add_node succeeds, returning `c1Node`.
Yet `_add_concept` ends without a return statement on this success path, so it
yields None, and Agent.percept therefore leaves status.poignancy unchanged at
5 and drops the concept — instead of accumulating 5 + 7 = 12 as the claim (and
the function's own docstring and fallback comment) require. -/
theorem C1_percept_poignancy_not_accumulated :
    perceptNodeType "李青" c1Event = "event" ∧
    (agentAddConcept "event" c1Event 7 (some c1Node) "tmp_1").1 = 7 ∧
    (agentAddConcept "event" c1Event 7 (some c1Node) "tmp_1").2 = none ∧
    perceptApplyConcept 5 [] (agentAddConcept "event" c1Event 7 (some c1Node) "tmp_1").2 =
      (5, []) ∧
    perceptApplyConcept 5 [] (some c1Node) = (12, [c1Node]) := by
  decide
